import Mathlib

/-!
# Verification of `wgpu-mc` chunk-update and animated-buffer core

Shallow embedding of the two operations in `src/rust/wgpu-mc/src/lib.rs`:

* `WmRenderer::upload_animated_block_buffer(data: Vec<f32>)` — the lazily
  created animated-texture buffer plus its bind group, and the full-contents
  write issued at the end of every call.
* `WmRenderer::submit_chunk_updates(scene: &Scene)` — draining the chunk
  update channel and issuing per-layer writes into the chunk buffer.

GPU objects are modelled by identity and size; `queue.write_buffer` calls are
recorded as an ordered list of write commands.  `f32` values are modelled by
their 32-bit patterns (no floating-point arithmetic occurs in the code: data
is only moved), and `bytemuck::cast_slice` becomes an explicit 4-bytes-per-
element serialisation, so element and byte sizes stay visible.  Rust panics
(`unwrap`, out-of-bounds indexing) are modelled by `Option`: `none` is a
panic.  `SectionStorage::replace` lives outside the sources at hand, so
`submit_chunk_updates` is parameterised by the replace function; its
Rust-level interface (state in, `Section` out, as forced by the call site
`let section = storage.replace(pos, &layers);`) is kept.
-/

set_option autoImplicit false

namespace WgpuMc

/-- Bit pattern of one `f32` element of the uploaded data.  The code never
does arithmetic on the floats, it only copies them, so the bit pattern is a
faithful model. -/
abbrev F32Bits := UInt32

/-- `bytemuck::cast_slice::<f32, u8>`: each 4-byte element is serialised to
its 4 little-endian bytes.  The byte length is 4 times the element count. -/
def castSlice (d : List F32Bits) : List UInt8 :=
  (d.map fun w : F32Bits =>
    [(w &&& 0xFF).toUInt8, ((w >>> 8) &&& 0xFF).toUInt8,
     ((w >>> 16) &&& 0xFF).toUInt8, ((w >>> 24) &&& 0xFF).toUInt8]).flatten

theorem castSlice_length (d : List F32Bits) : (castSlice d).length = d.length * 4 := by
  unfold castSlice
  induction d with
  | nil => rfl
  | cons w ws ih => simp_all; omega

/-- A GPU buffer: creation identity (`device.create_buffer` order) and byte
size.  Two buffers created by distinct `create_buffer` calls have distinct
ids. -/
structure GpuBuffer where
  id : Nat
  size : Nat
deriving DecidableEq, Repr

/-- A bind group; the single entry wraps the entire buffer with the given
identity (`BindingResource::Buffer(..as_entire_buffer_binding())`). -/
structure BindGroup where
  bufferId : Nat
deriving DecidableEq, Repr

/-- One `queue.write_buffer(buffer, offset, bytes)` command. -/
structure GpuWrite where
  bufferId : Nat
  offset : Nat
  bytes : List UInt8
deriving DecidableEq, Repr

/-- The renderer state visible to `upload_animated_block_buffer`:
`mc.animated_block_buffer` and `mc.animated_block_bind_group` (each an
`ArcSwap<Option<_>>`, modelled as `Option`), a fresh-id counter for
`device.create_buffer`, and the queue of issued writes. -/
structure RendererState where
  nextBufferId : Nat
  animated_block_buffer : Option GpuBuffer
  animated_block_bind_group : Option BindGroup
  queueWrites : List GpuWrite
deriving DecidableEq, Repr

/-- `device.create_buffer(&BufferDescriptor { size: (d.len() * 8) as BufferAddress, .. })`. -/
def createAnimatedBuffer (s : RendererState) (d : List F32Bits) : GpuBuffer :=
  { id := s.nextBufferId, size := d.length * 8 }

/-- The final `queue.write_buffer((**animated_block_buffer.load()).as_ref().unwrap(), 0,
bytemuck::cast_slice(d))`.  `none` models the `unwrap` panic on an absent
buffer. -/
def finalWrite (s : RendererState) (d : List F32Bits) : Option RendererState :=
  match s.animated_block_buffer with
  | none => none
  | some b => some { s with queueWrites := s.queueWrites ++ [⟨b.id, 0, castSlice d⟩] }

/-- `WmRenderer::upload_animated_block_buffer`.  If the buffer is absent, a
buffer of `d.len() * 8` bytes and a bind group wrapping it are created and
stored; then the full contents are written at offset 0 into the stored
buffer. -/
def upload_animated_block_buffer (s : RendererState) (data : List F32Bits) : Option RendererState :=
  let d := data
  if s.animated_block_buffer.isNone then
    let b := createAnimatedBuffer s d
    let s1 : RendererState :=
      { s with nextBufferId := s.nextBufferId + 1, animated_block_buffer := some b }
    let s2 : RendererState := { s1 with animated_block_bind_group := some ⟨b.id⟩ }
    finalWrite s2 d
  else
    finalWrite s d

/-- The sequence of states exposed by one `upload_animated_block_buffer`
call, one entry per atomic mutation of shared state: the source performs two
separate `ArcSwap::store` calls (`animated_block_buffer.store(..)` then
`animated_block_bind_group.store(..)`), then the queue write; each store
publishes a state on its own. -/
def upload_animated_block_buffer_trace (s : RendererState) (data : List F32Bits) :
    List RendererState :=
  if s.animated_block_buffer.isNone then
    let b := createAnimatedBuffer s data
    let s1 : RendererState :=
      { s with nextBufferId := s.nextBufferId + 1, animated_block_buffer := some b }
    let s2 : RendererState := { s1 with animated_block_bind_group := some ⟨b.id⟩ }
    s :: s1 :: s2 :: (finalWrite s2 data).toList
  else
    s :: (finalWrite s data).toList

/-- `glam::IVec3`, the chunk position key.  The `i32` components are modelled
as `Int`; only equality of positions matters to the embedded code. -/
structure IVec3 where
  x : Int
  y : Int
  z : Int
deriving DecidableEq, Repr

/-- `mc::chunk::BakedLayer`: the vertex and index byte data of one layer, as
consumed by `submit_chunk_updates` (`layers[i].vertices`, `layers[i].indices`). -/
structure BakedLayer where
  vertices : List UInt8
  indices : List UInt8
deriving DecidableEq, Repr

/-- A half-open element-unit range into the chunk buffer (Rust `Range`; the
`end` bound is named `stop` because `end` is reserved, and the code only
reads `.start`). -/
structure Rng where
  start : Nat
  stop : Nat
deriving DecidableEq, Repr

/-- A section layer slot's ranges: `vertex_range` and `index_range` into the
chunk buffer, in element units (the writes scale `.start` by 4). -/
structure RangeDescriptor where
  vertex_range : Rng
  index_range : Rng
deriving DecidableEq, Repr

/-- The value `SectionStorage::replace` returns: one `Option<RangeDescriptor>`
per layer slot. -/
structure Section where
  layers : List (Option RangeDescriptor)
deriving DecidableEq, Repr

/-- `type ChunkUpdateData = (IVec3, Vec<BakedLayer>)`, the channel message. -/
abbrev ChunkUpdateData := IVec3 × List BakedLayer

/-- One `queue.write_buffer(&scene.chunk_buffer.buffer, offset, bytes)`
command; the target is always the scene's single chunk buffer, so only the
byte offset and the bytes are recorded. -/
structure ChunkWrite where
  offset : Nat
  bytes : List UInt8
deriving DecidableEq, Repr

/-- The loop body `for (i, ranges) in section.layers.iter().enumerate()`:
starting at slot index `i`, collect the writes for the remaining slots.  A
`some` slot produces a vertex write at `vertex_range.start * 4` from
`layers[i].vertices` and an index write at `index_range.start * 4` from
`layers[i].indices`; a `none` slot produces nothing.  `layers[i]` out of
bounds is the Rust index panic, modelled by `none`. -/
def layerWrites (layers : List BakedLayer) :
    Nat → List (Option RangeDescriptor) → Option (List ChunkWrite)
  | _, [] => some []
  | i, none :: rest => layerWrites layers (i + 1) rest
  | i, some r :: rest =>
    match layers.get? i, layerWrites layers (i + 1) rest with
    | some l, some ws =>
        some (⟨r.vertex_range.start * 4, l.vertices⟩ ::
              ⟨r.index_range.start * 4, l.indices⟩ :: ws)
    | _, _ => none

/-- What one `submit_chunk_updates` call produces, as observed by its caller
and by the GPU queue: the final section storage state, the chunk-buffer
writes issued (in order), the `replace` calls made (in order), and the error
value surfaced to the caller.  The Rust function returns `()` — it has no
error channel — so the embedding can only ever put `none` in
`surfacedError`; the field records exactly what the caller receives. -/
structure SubmitOut (σ : Type) where
  storage : σ
  chunkWrites : List ChunkWrite
  replaceCalls : List ChunkUpdateData
  surfacedError : Option String
deriving DecidableEq, Repr

/-- The body of `updates.for_each(|(pos, layers)| ...)` for one drained
message: lock the storage, call `replace`, then issue the per-slot writes.
`replace` is a parameter because `SectionStorage` is defined outside the
excerpt; its interface (storage in, new storage and `Section` out) is the
one the call site fixes. -/
def processMessage {σ : Type} (replace : σ → IVec3 → List BakedLayer → σ × Section)
    (st : SubmitOut σ) (msg : ChunkUpdateData) : Option (SubmitOut σ) :=
  let res := replace st.storage msg.1 msg.2
  match layerWrites msg.2 0 res.2.layers with
  | none => none
  | some ws =>
    some { storage := res.1, chunkWrites := st.chunkWrites ++ ws,
           replaceCalls := st.replaceCalls ++ [msg], surfacedError := none }

/-- `WmRenderer::submit_chunk_updates`.  `queue` is the list of messages
available in the channel at drain time, in channel FIFO order (for a single
producer, enqueue order); `receiver.try_iter()` yields exactly these, and
the `for_each` processes them left to right.  `none` models a panic inside
the loop. -/
def submit_chunk_updates {σ : Type} (replace : σ → IVec3 → List BakedLayer → σ × Section)
    (queue : List ChunkUpdateData) (storage : σ) : Option (SubmitOut σ) :=
  queue.foldlM (processMessage replace) ⟨storage, [], [], none⟩

/-- Modelled from the spec: `SectionStorage::replace` with a fixed-capacity,
no-growth chunk-buffer allocator, exercising the resource-exhaustion case
(`SectionStorage` itself is outside the excerpt).  Storage state is the next
free element offset of a bump allocator.  Each non-empty layer needs
`vertices.length + indices.length` element units; when the request does not
fit under `cap`, the allocator cannot grow.  The interface forced by the
call site in `src` (`replace` returns a `Section`, and `submit_chunk_updates`
returns `()`) offers no error channel, so an exhausted slot can only come
back as "no range". -/
def replaceFixedCap (cap : Nat) (next : Nat) (_pos : IVec3) (layers : List BakedLayer) :
    Nat × Section :=
  let step := fun (acc : Nat × List (Option RangeDescriptor)) (l : BakedLayer) =>
    if l.vertices.isEmpty && l.indices.isEmpty then
      (acc.1, acc.2 ++ [none])
    else if acc.1 + l.vertices.length + l.indices.length ≤ cap then
      (acc.1 + l.vertices.length + l.indices.length,
       acc.2 ++ [some ⟨⟨acc.1, acc.1 + l.vertices.length⟩,
                       ⟨acc.1 + l.vertices.length,
                        acc.1 + l.vertices.length + l.indices.length⟩⟩])
    else
      (acc.1, acc.2 ++ [none])
  let r := layers.foldl step (next, [])
  (r.1, ⟨r.2⟩)

/-! ## Helper lemmas: the two branches of `upload_animated_block_buffer` -/

theorem upload_animated_present_eq (s : RendererState) (data : List F32Bits) (b : GpuBuffer)
    (hb : s.animated_block_buffer = some b) :
    upload_animated_block_buffer s data =
      some { s with queueWrites := s.queueWrites ++ [⟨b.id, 0, castSlice data⟩] } := by
  unfold upload_animated_block_buffer finalWrite
  simp [hb]

theorem upload_animated_absent_eq (s : RendererState) (data : List F32Bits)
    (hb : s.animated_block_buffer = none) :
    upload_animated_block_buffer s data =
      some { nextBufferId := s.nextBufferId + 1,
             animated_block_buffer := some ⟨s.nextBufferId, data.length * 8⟩,
             animated_block_bind_group := some ⟨s.nextBufferId⟩,
             queueWrites := s.queueWrites ++ [⟨s.nextBufferId, 0, castSlice data⟩] } := by
  unfold upload_animated_block_buffer finalWrite createAnimatedBuffer
  simp [hb]

/-! ## Claims about `upload_animated_block_buffer` -/

/-- C1 counterexample: the code sizes the buffer at `d.len() * 8` bytes, but
one `f32` element of the data serialises to 4 bytes, so a first upload of
K = 1 element creates a buffer of 8 bytes, not `1 * 4`. -/
theorem upload_animated_exact_size_cex :
    (upload_animated_block_buffer ⟨0, none, none, []⟩ [0]).map
        (fun s => s.animated_block_buffer.map GpuBuffer.size) = some (some 8)
    ∧ (castSlice [(0 : F32Bits)]).length = 1 * 4
    ∧ (8 : Nat) ≠ 1 * 4 := by decide

/-- C1 (amended): a first call to `upload_animated_block_buffer` (animated
resource absent) with data of K elements creates a buffer whose byte size is
K times 8 — twice the 4-byte size of one data element, not K times the
element size. -/
theorem upload_animated_size_eq (s : RendererState) (data : List F32Bits)
    (hb : s.animated_block_buffer = none) :
    ∃ s' : RendererState, upload_animated_block_buffer s data = some s'
      ∧ s'.animated_block_buffer = some ⟨s.nextBufferId, data.length * 8⟩
      ∧ (castSlice data).length = data.length * 4 :=
  ⟨_, upload_animated_absent_eq s data hb, rfl, castSlice_length data⟩

/-- C1 witness: first upload of one element from the fresh state creates the
buffer of `1 * 8` bytes. -/
theorem upload_animated_size_eq_witness :
    ∃ s' : RendererState, upload_animated_block_buffer ⟨0, none, none, []⟩ [0] = some s'
      ∧ s'.animated_block_buffer = some ⟨0, 1 * 8⟩
      ∧ (castSlice [(0 : F32Bits)]).length = 1 * 4 :=
  upload_animated_size_eq ⟨0, none, none, []⟩ [0] rfl

/-- C2 counterexample: after a first upload of K = 1 element (buffer id 0),
an upload of 2 > K elements keeps the very same buffer identity: the guard
`if buf.is_none()` is the only creation site, so no larger upload ever
recreates the buffer. -/
theorem upload_animated_realloc_cex :
    ((upload_animated_block_buffer ⟨0, none, none, []⟩ [0]).map
        (fun s => s.animated_block_buffer.map GpuBuffer.id)) = some (some 0)
    ∧ (((upload_animated_block_buffer ⟨0, none, none, []⟩ [0]).bind
        (fun s => upload_animated_block_buffer s [0, 0])).map
        (fun s => s.animated_block_buffer.map GpuBuffer.id)) = some (some 0) := by decide

/-- C2 (amended): once the animated buffer is present, every later upload —
with at most K elements or with more than K elements alike — reuses the same
buffer identity; the code never reallocates (no new buffer is created: the
creation counter does not move). -/
theorem upload_animated_no_realloc (s : RendererState) (data : List F32Bits) (b : GpuBuffer)
    (hb : s.animated_block_buffer = some b) :
    ∃ s' : RendererState, upload_animated_block_buffer s data = some s'
      ∧ s'.animated_block_buffer = some b ∧ s'.nextBufferId = s.nextBufferId :=
  ⟨_, upload_animated_present_eq s data b hb, hb, rfl⟩

/-- C2 witness: with buffer `⟨0, 8⟩` (created for 1 element) present, an
upload of 3 elements keeps buffer id 0 and creates nothing. -/
theorem upload_animated_no_realloc_witness :
    ∃ s' : RendererState,
      upload_animated_block_buffer ⟨1, some ⟨0, 8⟩, some ⟨0⟩, []⟩ [0, 0, 0] = some s'
      ∧ s'.animated_block_buffer = some ⟨0, 8⟩ ∧ s'.nextBufferId = 1 :=
  upload_animated_no_realloc ⟨1, some ⟨0, 8⟩, some ⟨0⟩, []⟩ [0, 0, 0] ⟨0, 8⟩ rfl

/-- C4 counterexample: the creating run from the fresh state exposes, right
after the first `store` (trace position 1), a state whose
`animated_block_buffer` is present while `animated_block_bind_group` is
still absent — the two fields are not published as a single atomic unit. -/
theorem upload_animated_atomic_publish_cex :
    (upload_animated_block_buffer_trace ⟨0, none, none, []⟩ [0]).get? 1 =
      some ⟨1, some ⟨0, 8⟩, none, []⟩
    ∧ (⟨1, some ⟨0, 8⟩, none, []⟩ : RendererState).animated_block_buffer.isSome = true
    ∧ (⟨1, some ⟨0, 8⟩, none, []⟩ : RendererState).animated_block_bind_group = none := by
  decide

/-- C4 (amended): a creating run publishes the buffer and the bind group by
two separate successive stores, buffer first — so a state with the buffer
present and the bind group still absent is exposed between them — and both
stores do complete before the write against the new buffer is issued (no
write is added until the final state). -/
theorem upload_animated_two_step_publish (s : RendererState) (data : List F32Bits)
    (hb : s.animated_block_buffer = none) (hg : s.animated_block_bind_group = none) :
    ∃ (b : GpuBuffer) (st1 st2 st3 : RendererState),
      upload_animated_block_buffer_trace s data = [s, st1, st2, st3]
      ∧ st1.animated_block_buffer = some b ∧ st1.animated_block_bind_group = none
      ∧ st2.animated_block_buffer = some b ∧ st2.animated_block_bind_group = some ⟨b.id⟩
      ∧ st1.queueWrites = s.queueWrites ∧ st2.queueWrites = s.queueWrites
      ∧ st3 = { st2 with queueWrites := s.queueWrites ++ [⟨b.id, 0, castSlice data⟩] } := by
  refine ⟨createAnimatedBuffer s data,
    { s with nextBufferId := s.nextBufferId + 1,
             animated_block_buffer := some (createAnimatedBuffer s data) },
    { s with nextBufferId := s.nextBufferId + 1,
             animated_block_buffer := some (createAnimatedBuffer s data),
             animated_block_bind_group := some ⟨(createAnimatedBuffer s data).id⟩ },
    _, ?_, rfl, hg, rfl, rfl, rfl, rfl, rfl⟩
  unfold upload_animated_block_buffer_trace finalWrite
  simp [hb]

/-- C4 witness: the two-step publication on the fresh state with a one
element upload. -/
theorem upload_animated_two_step_publish_witness :
    ∃ (b : GpuBuffer) (st1 st2 st3 : RendererState),
      upload_animated_block_buffer_trace ⟨0, none, none, []⟩ [0] =
        [⟨0, none, none, []⟩, st1, st2, st3]
      ∧ st1.animated_block_buffer = some b ∧ st1.animated_block_bind_group = none
      ∧ st2.animated_block_buffer = some b ∧ st2.animated_block_bind_group = some ⟨b.id⟩
      ∧ st1.queueWrites = [] ∧ st2.queueWrites = []
      ∧ st3 = { st2 with queueWrites := [] ++ [⟨b.id, 0, castSlice [0]⟩] } :=
  upload_animated_two_step_publish ⟨0, none, none, []⟩ [0] rfl rfl

/-- C5: if the animated resource is already present the call creates nothing
(the state is unchanged except for the appended write), and in all cases the
call ends by appending a full-contents write of the incoming data (all
`data.length * 4` bytes of it) at offset 0 targeting the current buffer. -/
theorem upload_animated_present_skip_and_write (s : RendererState) (data : List F32Bits) :
    (∀ b : GpuBuffer, s.animated_block_buffer = some b →
        upload_animated_block_buffer s data =
          some { s with queueWrites := s.queueWrites ++ [⟨b.id, 0, castSlice data⟩] })
    ∧ ∀ s' : RendererState, upload_animated_block_buffer s data = some s' →
        ∃ b : GpuBuffer, s'.animated_block_buffer = some b
          ∧ s'.queueWrites.getLast? = some ⟨b.id, 0, castSlice data⟩
          ∧ (castSlice data).length = data.length * 4 := by
  constructor
  · intro b hb
    exact upload_animated_present_eq s data b hb
  · intro s' h
    cases hb : s.animated_block_buffer with
    | none =>
      rw [upload_animated_absent_eq s data hb] at h
      injection h with h
      subst h
      exact ⟨_, rfl, by simp, castSlice_length data⟩
    | some b =>
      rw [upload_animated_present_eq s data b hb] at h
      injection h with h
      subst h
      exact ⟨b, hb, by simp, castSlice_length data⟩

/-- C5 witness: with buffer `⟨0, 8⟩` present, the call only appends the
write `⟨0, 0, castSlice [1]⟩`. -/
theorem upload_animated_present_skip_and_write_witness :
    upload_animated_block_buffer ⟨1, some ⟨0, 8⟩, some ⟨0⟩, []⟩ [1] =
      some ⟨1, some ⟨0, 8⟩, some ⟨0⟩, [⟨0, 0, castSlice [1]⟩]⟩ :=
  (upload_animated_present_skip_and_write ⟨1, some ⟨0, 8⟩, some ⟨0⟩, []⟩ [1]).1 ⟨0, 8⟩ rfl

/-- C10: in the single-threaded model, after the conditional creation branch
the buffer is always present, so the `unwrap` at the final write never
panics: every call completes (`isSome`). -/
theorem upload_animated_no_unwrap_panic (s : RendererState) (data : List F32Bits) :
    (upload_animated_block_buffer s data).isSome = true := by
  cases hb : s.animated_block_buffer with
  | none => rw [upload_animated_absent_eq s data hb]; rfl
  | some b => rw [upload_animated_present_eq s data b hb]; rfl

/-! ## Helper lemmas: `submit_chunk_updates` -/

theorem processMessage_some_eq {σ : Type} (replace : σ → IVec3 → List BakedLayer → σ × Section)
    (st out : SubmitOut σ) (msg : ChunkUpdateData)
    (h : processMessage replace st msg = some out) :
    ∃ ws : List ChunkWrite,
      layerWrites msg.2 0 ((replace st.storage msg.1 msg.2).2).layers = some ws
      ∧ out = ⟨(replace st.storage msg.1 msg.2).1, st.chunkWrites ++ ws,
               st.replaceCalls ++ [msg], none⟩ := by
  simp only [processMessage] at h
  cases hw : layerWrites msg.2 0 ((replace st.storage msg.1 msg.2).2).layers with
  | none => rw [hw] at h; cases h
  | some ws =>
    rw [hw] at h
    injection h with h
    exact ⟨ws, rfl, h.symm⟩

theorem foldl_replaceCalls {σ : Type} (replace : σ → IVec3 → List BakedLayer → σ × Section) :
    ∀ (queue : List ChunkUpdateData) (st out : SubmitOut σ),
      queue.foldlM (processMessage replace) st = some out →
      out.replaceCalls = st.replaceCalls ++ queue := by
  intro queue
  induction queue with
  | nil =>
    intro st out h
    injection h with h
    subst h
    simp
  | cons m q ih =>
    intro st out h
    rw [List.foldlM_cons] at h
    cases hp : processMessage replace st m with
    | none => rw [hp] at h; cases h
    | some st' =>
      rw [hp] at h
      obtain ⟨ws, -, hst'⟩ := processMessage_some_eq replace st st' m hp
      have := ih st' out h
      subst hst'
      simp at this
      simp [this]

theorem foldl_surfacedError {σ : Type} (replace : σ → IVec3 → List BakedLayer → σ × Section) :
    ∀ (queue : List ChunkUpdateData) (st out : SubmitOut σ),
      st.surfacedError = none →
      queue.foldlM (processMessage replace) st = some out →
      out.surfacedError = none := by
  intro queue
  induction queue with
  | nil =>
    intro st out hs h
    injection h with h
    subst h
    exact hs
  | cons m q ih =>
    intro st out hs h
    rw [List.foldlM_cons] at h
    cases hp : processMessage replace st m with
    | none => rw [hp] at h; cases h
    | some st' =>
      rw [hp] at h
      obtain ⟨ws, -, hst'⟩ := processMessage_some_eq replace st st' m hp
      exact ih st' out (by rw [hst']) h

theorem layerWrites_isSome (layers : List BakedLayer) :
    ∀ (slots : List (Option RangeDescriptor)) (i : Nat),
      (∀ (j : Nat) (r : RangeDescriptor), slots.get? j = some (some r) → i + j < layers.length) →
      (layerWrites layers i slots).isSome = true := by
  intro slots
  induction slots with
  | nil => intro i _; rfl
  | cons o rest ih =>
    intro i h
    cases o with
    | none =>
      have := ih (i + 1) (fun j r hj => by
        have := h (j + 1) r (by simpa using hj); omega)
      simpa [layerWrites] using this
    | some r =>
      have hi : i < layers.length := by have := h 0 r rfl; omega
      have hrest := ih (i + 1) (fun j r' hj => by
        have := h (j + 1) r' (by simpa using hj); omega)
      simp only [layerWrites]
      rw [List.get?_eq_get hi]
      cases hw : layerWrites layers (i + 1) rest with
      | none => rw [hw] at hrest; simp at hrest
      | some ws => simp

theorem layerWrites_slot_inbounds (layers : List BakedLayer) :
    ∀ (slots : List (Option RangeDescriptor)) (i : Nat) (ws : List ChunkWrite),
      layerWrites layers i slots = some ws →
      ∀ (j : Nat) (r : RangeDescriptor), slots.get? j = some (some r) →
        ∃ l : BakedLayer, layers.get? (i + j) = some l := by
  intro slots
  induction slots with
  | nil =>
    intro i ws _ j r hj
    simp at hj
  | cons o rest ih =>
    intro i ws h j r hj
    cases o with
    | none =>
      have h' : layerWrites layers (i + 1) rest = some ws := h
      cases j with
      | zero => simp at hj
      | succ j' =>
        obtain ⟨l, hl⟩ := ih (i + 1) ws h' j' r (by simpa using hj)
        exact ⟨l, by rw [show i + (j' + 1) = i + 1 + j' by omega]; exact hl⟩
    | some r0 =>
      simp only [layerWrites] at h
      cases hla : layers.get? i with
      | none => rw [hla] at h; simp at h
      | some l0 =>
        rw [hla] at h
        cases hw : layerWrites layers (i + 1) rest with
        | none => rw [hw] at h; simp at h
        | some ws' =>
          rw [hw] at h
          cases j with
          | zero => exact ⟨l0, by simpa using hla⟩
          | succ j' =>
            obtain ⟨l, hl⟩ := ih (i + 1) ws' hw j' r (by simpa using hj)
            exact ⟨l, by rw [show i + (j' + 1) = i + 1 + j' by omega]; exact hl⟩

theorem layerWrites_mem_iff (layers : List BakedLayer) :
    ∀ (slots : List (Option RangeDescriptor)) (i : Nat) (ws : List ChunkWrite),
      layerWrites layers i slots = some ws →
      ∀ w : ChunkWrite, w ∈ ws ↔ ∃ (j : Nat) (r : RangeDescriptor) (l : BakedLayer),
        slots.get? j = some (some r) ∧ layers.get? (i + j) = some l ∧
        (w = ⟨r.vertex_range.start * 4, l.vertices⟩ ∨ w = ⟨r.index_range.start * 4, l.indices⟩) := by
  intro slots
  induction slots with
  | nil =>
    intro i ws h w
    injection h with h
    subst h
    simp
  | cons o rest ih =>
    intro i ws h w
    cases o with
    | none =>
      have h' : layerWrites layers (i + 1) rest = some ws := h
      rw [ih (i + 1) ws h' w]
      constructor
      · rintro ⟨j, r, l, hj, hl, hw⟩
        exact ⟨j + 1, r, l, by simpa using hj,
          by rw [show i + (j + 1) = i + 1 + j by omega]; exact hl, hw⟩
      · rintro ⟨j, r, l, hj, hl, hw⟩
        cases j with
        | zero => simp at hj
        | succ j' =>
          exact ⟨j', r, l, by simpa using hj,
            by rw [show i + 1 + j' = i + (j' + 1) by omega]; exact hl, hw⟩
    | some r0 =>
      simp only [layerWrites] at h
      cases hla : layers.get? i with
      | none => rw [hla] at h; simp at h
      | some l0 =>
        rw [hla] at h
        cases hw' : layerWrites layers (i + 1) rest with
        | none => rw [hw'] at h; simp at h
        | some ws' =>
          rw [hw'] at h
          injection h with h
          subst h
          constructor
          · intro hmem
            rcases List.mem_cons.mp hmem with hv | hmem'
            · exact ⟨0, r0, l0, rfl, by simpa using hla, Or.inl hv⟩
            rcases List.mem_cons.mp hmem' with hx | hmem''
            · exact ⟨0, r0, l0, rfl, by simpa using hla, Or.inr hx⟩
            · obtain ⟨j, r, l, hj, hl, hwm⟩ := (ih (i + 1) ws' hw' w).mp hmem''
              exact ⟨j + 1, r, l, by simpa using hj,
                by rw [show i + (j + 1) = i + 1 + j by omega]; exact hl, hwm⟩
          · rintro ⟨j, r, l, hj, hl, hwm⟩
            cases j with
            | zero =>
              have hr : r = r0 := by
                have := hj
                simp at this
                exact this.symm
              have hll : l = l0 := by
                have : layers.get? i = some l := by simpa using hl
                rw [hla] at this
                injection this with this
                exact this.symm
              subst hr; subst hll
              rcases hwm with hv | hx
              · exact List.mem_cons.mpr (Or.inl hv)
              · exact List.mem_cons.mpr (Or.inr (List.mem_cons.mpr (Or.inl hx)))
            | succ j' =>
              refine List.mem_cons.mpr (Or.inr (List.mem_cons.mpr (Or.inr ?_)))
              exact (ih (i + 1) ws' hw' w).mpr ⟨j', r, l, by simpa using hj,
                by rw [show i + 1 + j' = i + (j' + 1) by omega]; exact hl, hwm⟩

theorem processMessage_isSome {σ : Type} (replace : σ → IVec3 → List BakedLayer → σ × Section)
    (hrep : ∀ (st : σ) (p : IVec3) (ls : List BakedLayer) (j : Nat) (r : RangeDescriptor),
      ((replace st p ls).2).layers.get? j = some (some r) → j < ls.length)
    (st : SubmitOut σ) (msg : ChunkUpdateData) :
    (processMessage replace st msg).isSome = true := by
  have hsome := layerWrites_isSome msg.2 ((replace st.storage msg.1 msg.2).2).layers 0
    (fun j r hj => by simpa using hrep st.storage msg.1 msg.2 j r hj)
  simp only [processMessage]
  cases hw : layerWrites msg.2 0 ((replace st.storage msg.1 msg.2).2).layers with
  | none => rw [hw] at hsome; simp at hsome
  | some ws => simp

theorem submit_no_panic_aux {σ : Type} (replace : σ → IVec3 → List BakedLayer → σ × Section)
    (hrep : ∀ (st : σ) (p : IVec3) (ls : List BakedLayer) (j : Nat) (r : RangeDescriptor),
      ((replace st p ls).2).layers.get? j = some (some r) → j < ls.length) :
    ∀ (queue : List ChunkUpdateData) (st : SubmitOut σ),
      (queue.foldlM (processMessage replace) st).isSome = true := by
  intro queue
  induction queue with
  | nil => intro st; rfl
  | cons m q ih =>
    intro st
    rw [List.foldlM_cons]
    cases hp : processMessage replace st m with
    | none =>
      have := processMessage_isSome replace hrep st m
      rw [hp] at this
      simp at this
    | some st' => simpa [hp] using ih st'

/-! ## Claims about `submit_chunk_updates` -/

/-- C3: for a drained message processed without panic, every layer slot of
the `Section` returned by `replace` that holds a present `RangeDescriptor`
gets that layer's vertex bytes written at byte offset `vertex_range.start * 4`
and its index bytes at byte offset `index_range.start * 4`; and every write
issued for the message originates from such a present slot — slots with no
range receive no write. -/
theorem submit_write_placement {σ : Type} (replace : σ → IVec3 → List BakedLayer → σ × Section)
    (st out : SubmitOut σ) (msg : ChunkUpdateData)
    (h : processMessage replace st msg = some out) :
    (∀ (i : Nat) (r : RangeDescriptor),
        ((replace st.storage msg.1 msg.2).2).layers.get? i = some (some r) →
        ∃ l : BakedLayer, msg.2.get? i = some l
          ∧ (⟨r.vertex_range.start * 4, l.vertices⟩ : ChunkWrite) ∈ out.chunkWrites
          ∧ (⟨r.index_range.start * 4, l.indices⟩ : ChunkWrite) ∈ out.chunkWrites)
    ∧ ∀ w ∈ out.chunkWrites, w ∈ st.chunkWrites ∨
        ∃ (i : Nat) (r : RangeDescriptor) (l : BakedLayer),
          ((replace st.storage msg.1 msg.2).2).layers.get? i = some (some r)
          ∧ msg.2.get? i = some l
          ∧ (w = ⟨r.vertex_range.start * 4, l.vertices⟩
             ∨ w = ⟨r.index_range.start * 4, l.indices⟩) := by
  obtain ⟨ws, hw, hout⟩ := processMessage_some_eq replace st out msg h
  subst hout
  constructor
  · intro i r hi
    obtain ⟨l, hl⟩ := layerWrites_slot_inbounds msg.2 _ 0 ws hw i r hi
    have hl' : msg.2.get? i = some l := by simpa using hl
    refine ⟨l, hl', ?_, ?_⟩
    · exact List.mem_append.mpr (Or.inr
        ((layerWrites_mem_iff msg.2 _ 0 ws hw _).mpr ⟨i, r, l, hi, hl, Or.inl rfl⟩))
    · exact List.mem_append.mpr (Or.inr
        ((layerWrites_mem_iff msg.2 _ 0 ws hw _).mpr ⟨i, r, l, hi, hl, Or.inr rfl⟩))
  · intro w hwmem
    rcases List.mem_append.mp hwmem with hold | hnew
    · exact Or.inl hold
    · obtain ⟨j, r, l, hj, hl, hwm⟩ := (layerWrites_mem_iff msg.2 _ 0 ws hw w).mp hnew
      exact Or.inr ⟨j, r, l, hj, by simpa using hl, hwm⟩

/-- C3 witness: one message with one layer and a present slot
`{vertex_range: 2.., index_range: 7..}`: the vertex bytes land at byte
offset 8 and the index bytes at byte offset 28 of the chunk buffer. -/
theorem submit_write_placement_witness :
    ∃ l : BakedLayer, [(⟨[1, 2], [3]⟩ : BakedLayer)].get? 0 = some l
      ∧ (⟨8, l.vertices⟩ : ChunkWrite) ∈ [(⟨8, [1, 2]⟩ : ChunkWrite), ⟨28, [3]⟩]
      ∧ (⟨28, l.indices⟩ : ChunkWrite) ∈ [(⟨8, [1, 2]⟩ : ChunkWrite), ⟨28, [3]⟩] :=
  (submit_write_placement (fun (st : Nat) _ _ => (st, ⟨[some ⟨⟨2, 5⟩, ⟨7, 9⟩⟩]⟩))
      ⟨0, [], [], none⟩ ⟨0, [⟨8, [1, 2]⟩, ⟨28, [3]⟩], [(⟨0, 0, 0⟩, [⟨[1, 2], [3]⟩])], none⟩
      (⟨0, 0, 0⟩, [⟨[1, 2], [3]⟩]) rfl).1 0 ⟨⟨2, 5⟩, ⟨7, 9⟩⟩ rfl

/-- C9: if `replace` only returns present `RangeDescriptor`s at slot indices
below the length of the layer list it was given, then the indexing
`layers[i]` inside the write loop is always in bounds and no run of
`submit_chunk_updates` panics. -/
theorem submit_no_oob_panic {σ : Type} (replace : σ → IVec3 → List BakedLayer → σ × Section)
    (queue : List ChunkUpdateData) (storage : σ)
    (hrep : ∀ (st : σ) (p : IVec3) (ls : List BakedLayer) (j : Nat) (r : RangeDescriptor),
      ((replace st p ls).2).layers.get? j = some (some r) → j < ls.length) :
    (submit_chunk_updates replace queue storage).isSome = true :=
  submit_no_panic_aux replace hrep queue ⟨storage, [], [], none⟩

/-- C9 witness: a `replace` that fills exactly one slot per input layer
satisfies the precondition, and the run completes. -/
theorem submit_no_oob_panic_witness :
    (submit_chunk_updates
      (fun (st : Nat) _ ls => (st, ⟨ls.map fun _ => some ⟨⟨0, 0⟩, ⟨0, 0⟩⟩⟩))
      [(⟨0, 0, 0⟩, [⟨[1], [2]⟩])] 0).isSome = true :=
  submit_no_oob_panic (fun (st : Nat) _ ls => (st, ⟨ls.map fun _ => some ⟨⟨0, 0⟩, ⟨0, 0⟩⟩⟩))
    [(⟨0, 0, 0⟩, [⟨[1], [2]⟩])] 0
    (fun st p ls j r hj => by
      by_contra hlt
      rw [List.get?_eq_none.mpr (by simpa using Nat.le_of_not_lt hlt)] at hj
      exact Option.noConfusion hj)

/-- C6: a successful `submit_chunk_updates` run drains every message of the
available batch without dropping any and calls `replace` exactly once per
message, in drain order (= channel FIFO order, the per-producer enqueue
order): the recorded `replace` calls are exactly the queue. -/
theorem submit_calls_replace_in_order {σ : Type}
    (replace : σ → IVec3 → List BakedLayer → σ × Section)
    (queue : List ChunkUpdateData) (storage : σ) (out : SubmitOut σ)
    (h : submit_chunk_updates replace queue storage = some out) :
    out.replaceCalls = queue := by
  simpa using foldl_replaceCalls replace queue ⟨storage, [], [], none⟩ out h

/-- C6 witness: a one-message batch produces exactly one `replace` call, on
that message. -/
theorem submit_calls_replace_in_order_witness :
    (⟨1, [], [(⟨0, 0, 0⟩, [])], none⟩ : SubmitOut Nat).replaceCalls = [(⟨0, 0, 0⟩, [])] :=
  submit_calls_replace_in_order (fun (st : Nat) _ _ => (st + 1, ⟨[]⟩))
    [(⟨0, 0, 0⟩, [])] 0 ⟨1, [], [(⟨0, 0, 0⟩, [])], none⟩ rfl

/-- C7: with an empty update channel, `submit_chunk_updates` drains zero
messages and leaves everything untouched: the storage comes back unchanged,
no write is issued and no `replace` call is made. -/
theorem submit_empty_queue_no_effect {σ : Type}
    (replace : σ → IVec3 → List BakedLayer → σ × Section) (storage : σ) :
    submit_chunk_updates replace [] storage = some ⟨storage, [], [], none⟩ := rfl

/-- C8 counterexample: with a spec-modelled fixed-capacity allocator that
cannot grow (`replaceFixedCap 0`) and a message whose layer needs space, the
applier cycle completes normally — the update is silently dropped (no write
issued, slot comes back as "no range") and the value surfaced to the caller
is `none`, not an error the caller could act on. -/
theorem submit_exhaustion_silent_cex :
    submit_chunk_updates (replaceFixedCap 0) [(⟨0, 0, 0⟩, [⟨[1], []⟩])] 0 =
      some ⟨0, [], [(⟨0, 0, 0⟩, [⟨[1], []⟩])], none⟩
    ∧ ((submit_chunk_updates (replaceFixedCap 0) [(⟨0, 0, 0⟩, [⟨[1], []⟩])] 0).map
        (fun o => o.surfacedError)) = some none := by decide

/-- C8 (amended): `submit_chunk_updates` never surfaces an error value to
its caller — the Rust function returns `()` and consumes `replace`'s result
directly as a `Section`, so resource exhaustion inside `replace` cannot
reach the caller as a recoverable error. -/
theorem submit_never_surfaces_error {σ : Type}
    (replace : σ → IVec3 → List BakedLayer → σ × Section)
    (queue : List ChunkUpdateData) (storage : σ) (out : SubmitOut σ)
    (h : submit_chunk_updates replace queue storage = some out) :
    out.surfacedError = none :=
  foldl_surfacedError replace queue ⟨storage, [], [], none⟩ out rfl h

/-- C8 witness: the exhausted one-message run surfaces no error. -/
theorem submit_never_surfaces_error_witness :
    (⟨0, [], [(⟨1, 2, 3⟩, [⟨[1], []⟩])], none⟩ : SubmitOut Nat).surfacedError = none :=
  submit_never_surfaces_error (replaceFixedCap 0) [(⟨1, 2, 3⟩, [⟨[1], []⟩])] 0
    ⟨0, [], [(⟨1, 2, 3⟩, [⟨[1], []⟩])], none⟩ rfl

end WgpuMc
